import Mathlib

/-!
Shallow embedding of the GraphQL resolver/data-access core in `src/main.py`
(FastAPI + SQLModel + Strawberry).  The relational store (SQLite accessed
through `Session(engine)`) is modelled as explicit state: a table of user
rows, a table of post rows, and the store's id generators.  The four
resolvers (`get_user`, `get_post`, `create_user`, `create_post`) become
functions over that state; `HTTPException` and the store's foreign-key
integrity error become an explicit error type.
-/

namespace Tugas3

/-- Row of the `user` table (`class User(SQLModel, table=True)`, main.py:27-33).
After persistence `id` is a concrete integer assigned by the store. -/
structure UserRow where
  id : Nat
  name : String
  email : String
  deriving DecidableEq, Repr

/-- Row of the `post` table (`class Post(SQLModel, table=True)`, main.py:16-24).
`author_id` carries `Field(foreign_key="user.id")`. -/
structure PostRow where
  id : Nat
  title : String
  category : String
  summary : String
  author_id : Nat
  deriving DecidableEq, Repr

/-- GraphQL result type `PostType` (main.py:39-45): the five scalar fields and
nothing else — in particular no expanded `author` object. -/
structure PostType where
  id : Nat
  title : String
  category : String
  summary : String
  author_id : Nat
  deriving DecidableEq, Repr

/-- GraphQL result type `UserType` (main.py:48-53): scalars plus the expanded
`posts` list. -/
structure UserType where
  id : Nat
  name : String
  email : String
  posts : List PostType
  deriving DecidableEq, Repr

/-- The relational store reached through `Session(engine)`.  `users` and
`posts` are the two tables in insertion order; `nextUserId` / `nextPostId`
are the store's primary-key generators (SQLite integer primary keys start
at 1 and are assigned increasingly, never reusing a value while rows are
only ever inserted). -/
structure Store where
  users : List UserRow
  posts : List PostRow
  nextUserId : Nat
  nextPostId : Nat
  deriving DecidableEq, Repr

/-- The freshly created store right after `SQLModel.metadata.create_all(engine)`
(main.py:36): both tables empty, id generators at 1. -/
def Store.init : Store := ⟨[], [], 1, 1⟩

/-- Errors escaping a resolver: `HTTPException(status_code, detail)`
raised by the query resolvers (main.py:65, 88), or the store's
referential-integrity failure propagating out of `session.commit()`
during `create_post`. -/
inductive ApiError where
  | httpException (status : Nat) (detail : String)
  | integrityError
  deriving DecidableEq, Repr

/-- `session.get(User, id)`: primary-key lookup in the `user` table. -/
def Store.getUserRow (s : Store) (id : Nat) : Option UserRow :=
  s.users.find? (fun u => u.id == id)

/-- `session.get(Post, id)`: primary-key lookup in the `post` table. -/
def Store.getPostRow (s : Store) (id : Nat) : Option PostRow :=
  s.posts.find? (fun p => p.id == id)

/-- Lazy relationship load behind `user.posts` (main.py:33, 78): all post
rows whose `author_id` equals the user's id. -/
def Store.postsOfAuthor (s : Store) (uid : Nat) : List PostRow :=
  s.posts.filter (fun p => p.author_id == uid)

/-- The `PostType(...)` construction from a post row used at main.py:71-77
and main.py:89-95: the five scalar columns copied across. -/
def PostRow.toType (p : PostRow) : PostType :=
  ⟨p.id, p.title, p.category, p.summary, p.author_id⟩

/-- `Query.get_user` (main.py:60-80): primary-key lookup, 404 on miss,
otherwise a `UserType` with `posts` expanded from the relationship. -/
def get_user (s : Store) (id : Nat) : Except ApiError UserType :=
  match s.getUserRow id with
  | none => .error (.httpException 404 "User tidak ditemukan")
  | some user =>
      .ok ⟨user.id, user.name, user.email,
           (s.postsOfAuthor user.id).map PostRow.toType⟩

/-- `Query.get_post` (main.py:83-95): primary-key lookup, 404 on miss,
otherwise the scalar projection of the row. -/
def get_post (s : Store) (id : Nat) : Except ApiError PostType :=
  match s.getPostRow id with
  | none => .error (.httpException 404 "Post tidak ditemukan")
  | some post => .ok post.toType

/-- `Mutation.create_user` (main.py:102-114): insert a new user row, commit,
refresh (materialising the generated id), and return a `UserType` with
`posts=[]`. -/
def create_user (s : Store) (name email : String) : UserType × Store :=
  let uid := s.nextUserId
  let newUser : UserRow := ⟨uid, name, email⟩
  (⟨uid, name, email, []⟩,
   { s with users := s.users ++ [newUser], nextUserId := uid + 1 })

/-- `Mutation.create_post` (main.py:117-130): insert a new post row
referencing `author_id` and commit.  The `foreign_key="user.id"` column
constraint (main.py:21) makes the store reject the commit when no user row
with that id exists; the resolver does not pre-validate, so the failure
surfaces as the store's integrity error and nothing is written. -/
def create_post (s : Store) (title category summary : String)
    (author_id : Nat) : Except ApiError PostType × Store :=
  if s.users.any (fun u => u.id == author_id) then
    let pid := s.nextPostId
    let newPost : PostRow := ⟨pid, title, category, summary, author_id⟩
    (.ok newPost.toType,
     { s with posts := s.posts ++ [newPost], nextPostId := pid + 1 })
  else
    (.error .integrityError, s)

/-- One inbound GraphQL operation of the exposed operation set
(`schema = strawberry.Schema(query=Query, mutation=Mutation)`, main.py:133). -/
inductive Op where
  | opGetUser (id : Nat)
  | opGetPost (id : Nat)
  | opCreateUser (name email : String)
  | opCreatePost (title category summary : String) (author_id : Nat)
  deriving DecidableEq, Repr

/-- Result payload of one operation. -/
inductive ApiResult where
  | userRes (u : UserType)
  | postRes (p : PostType)
  deriving DecidableEq, Repr

/-- Execute one operation against the store: each call opens its own session,
queries leave the store untouched, mutations commit exactly one insert. -/
def run (s : Store) : Op → Except ApiError ApiResult × Store
  | .opGetUser id => ((get_user s id).map .userRes, s)
  | .opGetPost id => ((get_post s id).map .postRes, s)
  | .opCreateUser name email =>
      let r := create_user s name email
      (.ok (.userRes r.1), r.2)
  | .opCreatePost title category summary author_id =>
      let r := create_post s title category summary author_id
      (r.1.map .postRes, r.2)

/-- Well-formedness of a store state: every persisted id is below the
corresponding generator (true of `Store.init` and preserved by every
operation), which is what makes freshly generated ids new. -/
def Store.WF (s : Store) : Prop :=
  (∀ u ∈ s.users, u.id < s.nextUserId) ∧ (∀ p ∈ s.posts, p.id < s.nextPostId)

instance (s : Store) : Decidable s.WF := by
  unfold Store.WF; infer_instance

/-! ### Demonstration states (the spec's concrete scenario §8) -/

/-- Store after `createUser(name="Ada", email="ada@example.com")` on a fresh
store. -/
def store1 : Store := (create_user Store.init "Ada" "ada@example.com").2

/-- Store after additionally `createPost(title="T", category="C",
summary="S", authorId=1)`. -/
def store2 : Store := (create_post store1 "T" "C" "S" 1).2

/-- Store after a second post for the same author. -/
def store3 : Store := (create_post store2 "T2" "C2" "S2" 1).2

/-- The `PostType` produced by the first `createPost`. -/
def demoPost : PostType := ⟨1, "T", "C", "S", 1⟩

/-- Result of `getUser(1)` against `store2`. -/
def demoUser2 : UserType := ⟨1, "Ada", "ada@example.com", [⟨1, "T", "C", "S", 1⟩]⟩

/-- Result of `getUser(1)` against `store3`. -/
def demoUser3 : UserType :=
  ⟨1, "Ada", "ada@example.com", [⟨1, "T", "C", "S", 1⟩, ⟨2, "T2", "C2", "S2", 1⟩]⟩

/-! ### Lookup helper lemmas -/

theorem getUserRow_some {s : Store} {id : Nat} {u : UserRow}
    (h : s.getUserRow id = some u) : u ∈ s.users ∧ u.id = id := by
  refine ⟨List.mem_of_find?_eq_some h, ?_⟩
  have hp := List.find?_some h
  simpa using hp

theorem getPostRow_some {s : Store} {id : Nat} {p : PostRow}
    (h : s.getPostRow id = some p) : p ∈ s.posts ∧ p.id = id := by
  refine ⟨List.mem_of_find?_eq_some h, ?_⟩
  have hp := List.find?_some h
  simpa using hp

theorem getUserRow_none {s : Store} {id : Nat}
    (h : ∀ u ∈ s.users, u.id ≠ id) : s.getUserRow id = none := by
  unfold Store.getUserRow
  rw [List.find?_eq_none]
  intro u hu
  simpa using h u hu

theorem getPostRow_none {s : Store} {id : Nat}
    (h : ∀ p ∈ s.posts, p.id ≠ id) : s.getPostRow id = none := by
  unfold Store.getPostRow
  rw [List.find?_eq_none]
  intro p hp
  simpa using h p hp

theorem find?_append_some {α : Type} {l₁ l₂ : List α} {pred : α → Bool} {a : α}
    (h : l₁.find? pred = some a) : (l₁ ++ l₂).find? pred = some a := by
  rw [List.find?_append, h, Option.or_some]

/-! ### Claim theorems -/

/-- C3: every `createUser(name, email)` call returns a User whose `id` is the
store-generated value (`s.nextUserId`, always populated after the
commit/refresh), whose `name` and `email` equal the submitted arguments
unchanged, and whose `posts` list is empty. -/
theorem createUser_returns_generated (s : Store) (name email : String) :
    (create_user s name email).1 = ⟨s.nextUserId, name, email, []⟩ := rfl

/-- C4: every `createPost(title, category, summary, authorId)` call whose
`authorId` references an existing User returns a Post whose `id` is the
store-generated value and whose `title`/`category`/`summary`/`author_id`
equal the submitted arguments. -/
theorem createPost_returns_generated (s : Store)
    (title category summary : String) (author_id : Nat)
    (h : ∃ u ∈ s.users, u.id = author_id) :
    (create_post s title category summary author_id).1 =
      .ok ⟨s.nextPostId, title, category, summary, author_id⟩ := by
  obtain ⟨u, hu, hid⟩ := h
  have hc : s.users.any (fun v => v.id == author_id) = true :=
    List.any_eq_true.mpr ⟨u, hu, by simpa using hid⟩
  unfold create_post
  rw [if_pos hc]
  rfl

/-- Witness for C4 at the spec's concrete scenario: store holding only user
Ada (id 1), `createPost("T","C","S",1)`. -/
theorem createPost_returns_generated_witness :
    (∃ u ∈ store1.users, u.id = 1) ∧
    (create_post store1 "T" "C" "S" 1).1 = .ok ⟨1, "T", "C", "S", 1⟩ :=
  ⟨by decide,
   (createPost_returns_generated store1 "T" "C" "S" 1 (by decide)).trans (by rfl)⟩

/-- C2: a `getUser`/`getPost` lookup with an id assigned to no persisted
record fails with the 404 `HTTPException` carrying the human-readable
"not found" message — a client-visible NotFound error, never a default or
empty record. -/
theorem unassigned_id_notFound (s : Store) (id : Nat)
    (hu : ∀ u ∈ s.users, u.id ≠ id) (hp : ∀ p ∈ s.posts, p.id ≠ id) :
    get_user s id = .error (.httpException 404 "User tidak ditemukan") ∧
    get_post s id = .error (.httpException 404 "Post tidak ditemukan") := by
  constructor
  · unfold get_user
    rw [getUserRow_none hu]
  · unfold get_post
    rw [getPostRow_none hp]

/-- Witness for C2: id 42 was never assigned in `store2`. -/
theorem unassigned_id_notFound_witness :
    (∀ u ∈ store2.users, u.id ≠ 42) ∧ (∀ p ∈ store2.posts, p.id ≠ 42) ∧
    get_user store2 42 = .error (.httpException 404 "User tidak ditemukan") ∧
    get_post store2 42 = .error (.httpException 404 "Post tidak ditemukan") :=
  ⟨by decide, by decide,
   (unassigned_id_notFound store2 42 (by decide) (by decide)).1,
   (unassigned_id_notFound store2 42 (by decide) (by decide)).2⟩

/-- C9: the query resolvers are read-only — running `getUser` or `getPost`
leaves the store state exactly as it was, whether the lookup succeeds or
fails with NotFound. -/
theorem queries_readonly (s : Store) (id : Nat) :
    (run s (.opGetUser id)).2 = s ∧ (run s (.opGetPost id)).2 = s :=
  ⟨rfl, rfl⟩

/-- C10: whenever `getUser(id)` succeeds the returned User's `id` equals the
argument, and whenever `getPost(id)` succeeds the returned Post's `id`
equals the argument — primary-key lookup echoes the key. -/
theorem lookup_result_echoes_id (s : Store) (id : Nat) :
    (∀ u : UserType, get_user s id = .ok u → u.id = id) ∧
    (∀ p : PostType, get_post s id = .ok p → p.id = id) := by
  constructor
  · intro u h
    unfold get_user at h
    rcases hrow : s.getUserRow id with _ | user
    · rw [hrow] at h
      simp at h
    · rw [hrow] at h
      injection h with h
      subst h
      exact (getUserRow_some hrow).2
  · intro p h
    unfold get_post at h
    rcases hrow : s.getPostRow id with _ | post
    · rw [hrow] at h
      simp at h
    · rw [hrow] at h
      injection h with h
      subst h
      exact (getPostRow_some hrow).2

/-- Witness for C10: successful lookups in `store2` echo the key 1. -/
theorem lookup_result_echoes_id_witness :
    get_user store2 1 = .ok demoUser2 ∧ demoUser2.id = 1 ∧
    get_post store2 1 = .ok demoPost ∧ demoPost.id = 1 :=
  ⟨rfl, (lookup_result_echoes_id store2 1).1 demoUser2 rfl,
   rfl, (lookup_result_echoes_id store2 1).2 demoPost rfl⟩

/-- C1: `createPost` with an `authorId` matching no existing User fails with
the store's referential-integrity (constraint) error, leaves the store
state unchanged, and no `getPost` on any id afterwards returns the
attempted Post. -/
theorem createPost_missingAuthor_fails (s : Store) (hwf : s.WF)
    (title category summary : String) (author_id : Nat)
    (h : ∀ u ∈ s.users, u.id ≠ author_id) :
    (create_post s title category summary author_id).1 = .error .integrityError ∧
    (create_post s title category summary author_id).2 = s ∧
    ∀ pid : Nat,
      get_post (create_post s title category summary author_id).2 pid ≠
        .ok (⟨s.nextPostId, title, category, summary, author_id⟩ : PostType) := by
  have hc : (s.users.any fun v => v.id == author_id) = false := by
    rw [List.any_eq_false]
    intro u hu
    simpa using h u hu
  have hfst :
      (create_post s title category summary author_id).1 = .error .integrityError := by
    unfold create_post
    rw [if_neg (by simp [hc])]
  have hsnd : (create_post s title category summary author_id).2 = s := by
    unfold create_post
    rw [if_neg (by simp [hc])]
  refine ⟨hfst, hsnd, ?_⟩
  intro pid hcontra
  rw [hsnd] at hcontra
  unfold get_post at hcontra
  rcases hrow : s.getPostRow pid with _ | post
  · rw [hrow] at hcontra
    simp at hcontra
  · rw [hrow] at hcontra
    injection hcontra with hcontra
    have hlt := hwf.2 post (getPostRow_some hrow).1
    have hid : post.id = s.nextPostId := congrArg PostType.id hcontra
    omega

/-- Witness for C1: `store1` holds only user id 1, so `authorId = 99` is
dangling; the insert fails, the store is unchanged, and `getPost(1)` does
not return the attempted post. -/
theorem createPost_missingAuthor_fails_witness :
    store1.WF ∧ (∀ u ∈ store1.users, u.id ≠ 99) ∧
    (create_post store1 "T" "C" "S" 99).1 = .error .integrityError ∧
    (create_post store1 "T" "C" "S" 99).2 = store1 ∧
    get_post (create_post store1 "T" "C" "S" 99).2 1 ≠
      .ok (⟨store1.nextPostId, "T", "C", "S", 99⟩ : PostType) :=
  ⟨by decide, by decide,
   (createPost_missingAuthor_fails store1 (by decide) "T" "C" "S" 99 (by decide)).1,
   (createPost_missingAuthor_fails store1 (by decide) "T" "C" "S" 99 (by decide)).2.1,
   (createPost_missingAuthor_fails store1 (by decide) "T" "C" "S" 99 (by decide)).2.2 1⟩

/-- C5: a successful `getUser` returns in `posts` exactly (as a set) the
images of the post rows whose `author_id` equals the returned user's id,
and no others. -/
theorem getUser_posts_exactly_authored (s : Store) (id : Nat) (u : UserType)
    (h : get_user s id = .ok u) :
    ∀ p : PostType,
      p ∈ u.posts ↔ ∃ row ∈ s.posts, row.author_id = u.id ∧ p = row.toType := by
  unfold get_user at h
  rcases hrow : s.getUserRow id with _ | user
  · rw [hrow] at h
    simp at h
  · rw [hrow] at h
    injection h with h
    subst h
    intro p
    simp only [Store.postsOfAuthor, List.mem_map, List.mem_filter, beq_iff_eq]
    constructor
    · rintro ⟨row, ⟨hmem, ha⟩, hp⟩
      exact ⟨row, hmem, ha, hp.symm⟩
    · rintro ⟨row, hmem, ha, hp⟩
      exact ⟨row, ⟨hmem, ha⟩, hp.symm⟩

/-- Witness for C5 at the spec's scenario: after creating Ada and posts P1,
P2 with her id, `getUser(1).posts` is exactly {P1, P2}; the ↔ is
exercised at P1. -/
theorem getUser_posts_exactly_authored_witness :
    get_user store3 1 = .ok demoUser3 ∧
    ((⟨1, "T", "C", "S", 1⟩ : PostType) ∈ demoUser3.posts ↔
      ∃ row ∈ store3.posts, row.author_id = demoUser3.id ∧
        (⟨1, "T", "C", "S", 1⟩ : PostType) = row.toType) :=
  ⟨rfl, getUser_posts_exactly_authored store3 1 demoUser3 rfl ⟨1, "T", "C", "S", 1⟩⟩

/-- C6: round-trip — a Post returned by a successful `createPost` is returned
unchanged (all five scalar fields) by a subsequent `getPost` on its id. -/
theorem createPost_then_getPost_roundtrip (s : Store) (hwf : s.WF)
    (title category summary : String) (author_id : Nat) (p : PostType) (s' : Store)
    (h : create_post s title category summary author_id = (.ok p, s')) :
    get_post s' p.id = .ok p := by
  by_cases hc : (s.users.any fun v => v.id == author_id) = true
  · unfold create_post at h
    rw [if_pos hc] at h
    have h1 : Except.ok
        (PostRow.toType ⟨s.nextPostId, title, category, summary, author_id⟩) =
        Except.ok p := congrArg Prod.fst h
    have h2 : ({ s with
        posts := s.posts ++ [⟨s.nextPostId, title, category, summary, author_id⟩],
        nextPostId := s.nextPostId + 1 } : Store) = s' := congrArg Prod.snd h
    subst h2
    injection h1 with h1
    subst h1
    have hnone : s.posts.find? (fun q => q.id == s.nextPostId) = none := by
      rw [List.find?_eq_none]
      intro q hq
      have := hwf.2 q hq
      simp
      omega
    simp only [get_post, Store.getPostRow, PostRow.toType, List.find?_append, hnone,
      Option.none_or, List.find?_cons_of_pos, beq_self_eq_true]
  · unfold create_post at h
    rw [if_neg hc] at h
    have hbad := congrArg Prod.fst h
    simp at hbad

/-- Witness for C6 at the spec's scenario: the post created in `store1` is
re-fetched identically from `store2`. -/
theorem createPost_then_getPost_roundtrip_witness :
    store1.WF ∧
    create_post store1 "T" "C" "S" 1 = (.ok demoPost, store2) ∧
    get_post store2 demoPost.id = .ok demoPost :=
  ⟨by decide, rfl,
   createPost_then_getPost_roundtrip store1 (by decide) "T" "C" "S" 1 demoPost store2
     rfl⟩

/-- C7: a successful `getPost` returns exactly the scalar projection
(`PostRow.toType`: id, title, category, summary, author_id) of the stored
row, and its result never depends on the user table — the `author`
relationship is not expanded, asymmetric with `getUser`, which does expand
`posts`. -/
theorem getPost_scalarOnly_noAuthorExpansion (s : Store) (id : Nat) (p : PostType)
    (h : get_post s id = .ok p) :
    (∃ row, s.getPostRow id = some row ∧ p = row.toType) ∧
    ∀ users' : List UserRow, get_post { s with users := users' } id = get_post s id := by
  constructor
  · unfold get_post at h
    rcases hrow : s.getPostRow id with _ | post
    · rw [hrow] at h
      simp at h
    · rw [hrow] at h
      injection h with h
      exact ⟨post, rfl, h.symm⟩
  · intro users'
    rfl

/-- Witness for C7: fetching post 1 from `store2` yields the scalar
projection of its row, unchanged even if the user table is emptied. -/
theorem getPost_scalarOnly_noAuthorExpansion_witness :
    get_post store2 1 = .ok demoPost ∧
    (∃ row, store2.getPostRow 1 = some row ∧ demoPost = row.toType) ∧
    get_post { store2 with users := [] } 1 = get_post store2 1 :=
  ⟨rfl, (getPost_scalarOnly_noAuthorExpansion store2 1 demoPost rfl).1,
   (getPost_scalarOnly_noAuthorExpansion store2 1 demoPost rfl).2 []⟩

/-- C8: no exposed operation updates or deletes a persisted entity — every
primary-key lookup that succeeded before an operation succeeds after it
with the identical row (fields and id unchanged); any row present
afterwards is either an old row or carries a fresh id at or above the old
generator value; the generators never decrease; and well-formedness (every
persisted id below its generator) is preserved — together: assigned ids
are never reused within a store instance. -/
theorem persisted_entities_stable (s : Store) (hwf : s.WF) (op : Op) :
    (∀ id u, s.getUserRow id = some u → (run s op).2.getUserRow id = some u) ∧
    (∀ id p, s.getPostRow id = some p → (run s op).2.getPostRow id = some p) ∧
    (∀ u ∈ (run s op).2.users, u ∈ s.users ∨ s.nextUserId ≤ u.id) ∧
    (∀ p ∈ (run s op).2.posts, p ∈ s.posts ∨ s.nextPostId ≤ p.id) ∧
    s.nextUserId ≤ (run s op).2.nextUserId ∧
    s.nextPostId ≤ (run s op).2.nextPostId ∧
    (run s op).2.WF := by
  cases op with
  | opGetUser id =>
      exact ⟨fun _ _ h => h, fun _ _ h => h, fun u hu => .inl hu, fun p hp => .inl hp,
        le_refl _, le_refl _, hwf⟩
  | opGetPost id =>
      exact ⟨fun _ _ h => h, fun _ _ h => h, fun u hu => .inl hu, fun p hp => .inl hp,
        le_refl _, le_refl _, hwf⟩
  | opCreateUser name email =>
      have hrun : (run s (.opCreateUser name email)).2 =
          { s with users := s.users ++ [⟨s.nextUserId, name, email⟩],
                   nextUserId := s.nextUserId + 1 } := rfl
      rw [hrun]
      refine ⟨?_, fun _ _ h => h, ?_, fun p hp => .inl hp, Nat.le_succ _, le_refl _,
        ?_, ?_⟩
      · intro id u h
        unfold Store.getUserRow at h ⊢
        exact find?_append_some h
      · intro u hu
        rcases List.mem_append.mp hu with hold | hnew
        · exact .inl hold
        · rcases List.mem_singleton.mp hnew with rfl
          exact .inr (le_refl _)
      · intro u hu
        rcases List.mem_append.mp hu with hold | hnew
        · have := hwf.1 u hold
          show u.id < s.nextUserId + 1
          omega
        · rcases List.mem_singleton.mp hnew with rfl
          exact Nat.lt_succ_self _
      · exact hwf.2
  | opCreatePost title category summary author_id =>
      by_cases hc : (s.users.any fun v => v.id == author_id) = true
      · have hrun : (run s (.opCreatePost title category summary author_id)).2 =
            { s with
              posts := s.posts ++ [⟨s.nextPostId, title, category, summary, author_id⟩],
              nextPostId := s.nextPostId + 1 } := by
          simp only [run, create_post]
          rw [if_pos hc]
        rw [hrun]
        refine ⟨fun _ _ h => h, ?_, fun u hu => .inl hu, ?_, le_refl _, Nat.le_succ _,
          ?_, ?_⟩
        · intro id p h
          unfold Store.getPostRow at h ⊢
          exact find?_append_some h
        · intro p hp
          rcases List.mem_append.mp hp with hold | hnew
          · exact .inl hold
          · rcases List.mem_singleton.mp hnew with rfl
            exact .inr (le_refl _)
        · exact hwf.1
        · intro p hp
          rcases List.mem_append.mp hp with hold | hnew
          · have := hwf.2 p hold
            show p.id < s.nextPostId + 1
            omega
          · rcases List.mem_singleton.mp hnew with rfl
            exact Nat.lt_succ_self _
      · have hrun : (run s (.opCreatePost title category summary author_id)).2 = s := by
          simp only [run, create_post]
          rw [if_neg hc]
        rw [hrun]
        exact ⟨fun _ _ h => h, fun _ _ h => h, fun u hu => .inl hu, fun p hp => .inl hp,
          le_refl _, le_refl _, hwf⟩

/-- Witness for C8: after running `createUser("Bob", ...)` against `store1`,
user 1 (Ada) is still returned identically by primary-key lookup and the
store stays well-formed. -/
theorem persisted_entities_stable_witness :
    store1.WF ∧
    store1.getUserRow 1 = some ⟨1, "Ada", "ada@example.com"⟩ ∧
    (run store1 (.opCreateUser "Bob" "bob@example.com")).2.getUserRow 1 =
      some ⟨1, "Ada", "ada@example.com"⟩ ∧
    (run store1 (.opCreateUser "Bob" "bob@example.com")).2.WF :=
  ⟨by decide, by decide,
   (persisted_entities_stable store1 (by decide)
     (.opCreateUser "Bob" "bob@example.com")).1 1 ⟨1, "Ada", "ada@example.com"⟩
     (by decide),
   (persisted_entities_stable store1 (by decide)
     (.opCreateUser "Bob" "bob@example.com")).2.2.2.2.2.2⟩

end Tugas3
